import Mathlib

/-!
Verification of `src/spacetoolbox/cfd_utilities/cell_volume.c`, a 28-line
ANSYS Fluent user-defined function (`DEFINE_ON_DEMAND(on_demand_calc)`).

The C routine: obtains the active mesh domain (`Get_Domain(1)`), opens
`"H:\volumedata.csv"` with `fopen(..., "a")` (append mode, result never
checked), prints `"File created\n"`, then for every cell thread of the
domain (`thread_loop_c`) and every cell of the thread (`begin_c_loop` /
`end_c_loop`) reads the cell volume (`C_VOLUME(c,t)`, a `real`, i.e. a
floating-point scalar owned by the host solver), writes it with
`fprintf(fp, "%.20f\n", volume)` and accumulates `vol_tot += volume`
(`vol_tot` is never initialized), finally `fclose(fp)` and prints
`"File closed\n"`.

Shallow embedding choices:
* the solver's `real` scalars become `ℚ`;
* text is `List Char`; the file system holds the content of the one
  hard-coded output path; the console is a list of printed strings;
* the `FILE *` handle is `Option Unit`: `none` models the NULL handle a
  failed `fopen` returns;
* every libc call the routine performs on the handle or the console is
  recorded, in program order, in an event trace, so that claims about
  which calls happen (and against which handle) are statable;
* `fprintf` through a valid handle appends its formatted text; the file
  content is left unchanged under a NULL handle (C leaves it undefined;
  no theorem about file content assumes a failed open);
* `%.20f` becomes `fmt20`: sign, base-ten integer digits, `'.'`, exactly
  20 base-ten fractional digits of the value rounded to 20 decimals,
  `'\n'`.
-/

/-- The decimal digit character for `d` (`0 ↦ '0'`, …, `9 ↦ '9'`). -/
def digitChar (d : Nat) : Char := Char.ofNat (48 + d)

/-- Base-ten digit characters of `n`, most significant first (never empty). -/
def natDigits (n : Nat) : List Char :=
  if _h : n < 10 then [digitChar n]
  else natDigits (n / 10) ++ [digitChar (n % 10)]
decreasing_by exact Nat.div_lt_self (by omega) (by omega)

/-- The 20 low base-ten digits of `n`, most significant first: positions
`10^19` down to `10^0`.  These are the fractional digits of a value whose
scaled-by-`10^20` rounding is `n`. -/
def frac20 (n : Nat) : List Char :=
  (List.range 20).map (fun i => digitChar (n / 10 ^ (19 - i) % 10))

/-- Embedding of `fprintf`'s `"%.20f\n"` conversion: round `|x|` to 20
decimal places (scaled integer `n`), then print sign, the integer part's
digits, `'.'`, the 20 fractional digits, `'\n'`. -/
def fmt20 (x : ℚ) : List Char :=
  let n : Nat := (⌊|x| * 10 ^ 20 + 1 / 2⌋).toNat
  (if x < 0 then ['-'] else []) ++ natDigits (n / 10 ^ 20) ++ ['.'] ++ frac20 n ++ ['\n']

/-- A mesh cell; the only attribute the routine consumes is its volume. -/
structure Cell where
  volume : ℚ
deriving DecidableEq

/-- A cell-collection (Fluent "thread"): a grouping of cells in a domain. -/
structure Thread where
  cells : List Cell
deriving DecidableEq

/-- The host solver's mesh domain: its cell threads. -/
structure Domain where
  threads : List Thread
deriving DecidableEq

/-- `C_VOLUME(c,t)`: the precomputed volume of cell `c` in thread `t`. -/
def C_VOLUME (c : Cell) (_t : Thread) : ℚ := c.volume

/-- The flattened sequence of cell volumes the host traversal yields
(threads in order, cells in order within each thread). -/
def Domain.cellVolumes (d : Domain) : List ℚ :=
  (d.threads.map (fun t => t.cells.map Cell.volume)).flatten

/-- Number of cells in the domain. -/
def Domain.numCells (d : Domain) : Nat := d.cellVolumes.length

/-- A `FILE *` handle: `none` is the NULL handle of a failed `fopen`. -/
abbrev Handle := Option Unit

/-- One libc call performed by the routine, as recorded in program order. -/
inductive Event where
  | fopenCall (path mode : String) (result : Handle)
  | printf (text : String)
  | fprintf (fp : Handle) (text : List Char)
  | fclose (fp : Handle)
deriving DecidableEq

/-- The world the routine runs in: the host domain (`Get_Domain(1)`),
the content of the hard-coded output file, the console, and whether
`fopen` on that path fails in this environment. -/
structure World where
  domain : Domain
  file : List Char
  console : List String
  openFails : Bool
deriving DecidableEq

/-- Result trace of one invocation: the libc calls in program order and
the final value of `vol_tot`. -/
structure Trace where
  events : List Event
  vol_tot : ℚ
deriving DecidableEq

/-- Inner loop `begin_c_loop(c,t) ... end_c_loop(c,t)` over the cells of
thread `t`: per cell, read `C_VOLUME(c,t)`, format it for `fprintf`, and
add it to `vol_tot`.  Returns the `fprintf` texts in order and the
updated `vol_tot`. -/
def begin_c_loop (t : Thread) : List Cell → ℚ → List (List Char) × ℚ
  | [], vol_tot => ([], vol_tot)
  | c :: cs, vol_tot =>
    let volume := C_VOLUME c t
    let rest := begin_c_loop t cs (vol_tot + volume)
    (fmt20 volume :: rest.1, rest.2)

/-- Outer loop `thread_loop_c(t,d)` over all cell threads: run the inner
cell loop on each thread in order, threading `vol_tot` through. -/
def thread_loop_c : List Thread → ℚ → List (List Char) × ℚ
  | [], vol_tot => ([], vol_tot)
  | t :: ts, vol_tot =>
    let inner := begin_c_loop t t.cells vol_tot
    let rest := thread_loop_c ts inner.2
    (inner.1 ++ rest.1, rest.2)

/-- The hard-coded output path of the routine. -/
def outPath : String := "H:\\volumedata.csv"

/-- `DEFINE_ON_DEMAND(on_demand_calc)`: one invocation of the routine on
world `w`, with `v0` the initial (uninitialized, hence arbitrary) value
of the local `vol_tot`.  Mirrors the C line by line: `Get_Domain(1)`;
`fopen(outPath, "a")` unchecked; `printf("File created\n")`; the nested
loops; `fclose(fp)`; `printf("File closed\n")`.  Returns the world after
the call and the trace of libc calls. -/
def on_demand_calc (w : World) (v0 : ℚ) : World × Trace :=
  let d := w.domain
  let fp : Handle := if w.openFails then none else some ()
  let run := thread_loop_c d.threads v0
  let events :=
    Event.fopenCall outPath "a" fp ::
    Event.printf "File created\n" ::
    (run.1.map (Event.fprintf fp) ++ [Event.fclose fp, Event.printf "File closed\n"])
  ({ domain := d
     file := if w.openFails then w.file else w.file ++ run.1.flatten
     console := w.console ++ ["File created\n", "File closed\n"]
     openFails := w.openFails },
   { events := events, vol_tot := run.2 })

/-- The `fprintf` texts of a trace, in order (one per cell visit). -/
def writesOf (es : List Event) : List (List Char) :=
  es.filterMap (fun e => match e with | Event.fprintf _ s => some s | _ => none)

/-- A well-formed `%.20f` output line: a nonempty prefix free of `'.'`
and `'\n'` (sign and integer digits), one `'.'`, exactly 20 base-ten
digit characters, and a terminating `'\n'`. -/
def lineFormatOk (l : List Char) : Prop :=
  ∃ s t, l = s ++ '.' :: (t ++ ['\n']) ∧ s ≠ [] ∧ t.length = 20 ∧
    (∀ c ∈ s, c ≠ '.' ∧ c ≠ '\n') ∧ (∀ c ∈ t, ∃ d, d < 10 ∧ c = digitChar d)

/- ## Basic lemmas about the formatter -/

theorem digitChar_ne : ∀ d < 10, digitChar d ≠ '.' ∧ digitChar d ≠ '\n' := by
  decide

theorem natDigits_ne_nil (n : Nat) : natDigits n ≠ [] := by
  rw [natDigits]
  split <;> simp

theorem natDigits_mem (n : Nat) :
    ∀ c ∈ natDigits n, ∃ d, d < 10 ∧ c = digitChar d := by
  induction n using Nat.strong_induction_on with
  | _ n ih =>
    rw [natDigits]
    split
    · intro c hc
      simp only [List.mem_singleton] at hc
      exact ⟨n, by omega, hc⟩
    · intro c hc
      rcases List.mem_append.mp hc with h1 | h1
      · exact ih (n / 10) (Nat.div_lt_self (by omega) (by omega)) c h1
      · simp only [List.mem_singleton] at h1
        exact ⟨n % 10, Nat.mod_lt _ (by omega), h1⟩

theorem frac20_length (n : Nat) : (frac20 n).length = 20 := by
  simp [frac20]

theorem frac20_mem (n : Nat) :
    ∀ c ∈ frac20 n, ∃ d, d < 10 ∧ c = digitChar d := by
  intro c hc
  rcases List.mem_map.mp hc with ⟨i, _, hi⟩
  exact ⟨n / 10 ^ (19 - i) % 10, Nat.mod_lt _ (by omega), hi.symm⟩

/-- Every `%.20f` output line is well formed: some sign/integer-digit
prefix, one `'.'`, exactly 20 digit characters, one final `'\n'`. -/
theorem lineFormatOk_fmt20 (x : ℚ) : lineFormatOk (fmt20 x) := by
  refine ⟨(if x < 0 then ['-'] else []) ++ natDigits ((⌊|x| * 10 ^ 20 + 1 / 2⌋).toNat / 10 ^ 20),
          frac20 (⌊|x| * 10 ^ 20 + 1 / 2⌋).toNat, ?_, ?_, frac20_length _, ?_, frac20_mem _⟩
  · simp [fmt20, List.append_assoc]
  · intro h
    rcases List.append_eq_nil.mp h with ⟨_, h2⟩
    exact natDigits_ne_nil _ h2
  · intro c hc
    rcases List.mem_append.mp hc with h1 | h1
    · split at h1
      · simp only [List.mem_singleton] at h1
        subst h1
        exact ⟨by decide, by decide⟩
      · simp at h1
    · rcases natDigits_mem _ c h1 with ⟨d, hd, rfl⟩
      exact digitChar_ne d hd

/- ## Loop characterizations -/

/-- The inner cell loop writes, in order, one `%.20f` line per cell. -/
theorem begin_c_loop_fst (t : Thread) (cs : List Cell) (v : ℚ) :
    (begin_c_loop t cs v).1 = cs.map (fun c => fmt20 c.volume) := by
  induction cs generalizing v with
  | nil => rfl
  | cons c cs ih => simp [begin_c_loop, C_VOLUME, ih]

/-- The inner cell loop adds exactly the sum of the visited volumes to
the running `vol_tot`. -/
theorem begin_c_loop_snd (t : Thread) (cs : List Cell) (v : ℚ) :
    (begin_c_loop t cs v).2 = v + (cs.map Cell.volume).sum := by
  induction cs generalizing v with
  | nil => simp [begin_c_loop]
  | cons c cs ih =>
    simp [begin_c_loop, C_VOLUME, ih]
    ring

/-- The outer thread loop writes the per-thread blocks in thread order. -/
theorem thread_loop_c_fst (ts : List Thread) (v : ℚ) :
    (thread_loop_c ts v).1
      = (ts.map (fun t => t.cells.map (fun c => fmt20 c.volume))).flatten := by
  induction ts generalizing v with
  | nil => rfl
  | cons t ts ih => simp [thread_loop_c, begin_c_loop_fst, ih]

/-- The outer thread loop adds the sum over all threads to `vol_tot`. -/
theorem thread_loop_c_snd (ts : List Thread) (v : ℚ) :
    (thread_loop_c ts v).2
      = v + (ts.map (fun t => (t.cells.map Cell.volume).sum)).sum := by
  induction ts generalizing v with
  | nil => simp [thread_loop_c]
  | cons t ts ih =>
    simp [thread_loop_c, begin_c_loop_snd, ih]
    ring

/-- The full write pass emits exactly the formatted flattened volume
sequence of the domain. -/
theorem thread_loop_c_writes (d : Domain) (v : ℚ) :
    (thread_loop_c d.threads v).1 = d.cellVolumes.map fmt20 := by
  rw [thread_loop_c_fst, Domain.cellVolumes, List.map_flatten]
  simp [List.map_map, Function.comp_def]

/-- The final `vol_tot` is the initial value plus the sum of all
emitted volumes. -/
theorem thread_loop_c_total (d : Domain) (v : ℚ) :
    (thread_loop_c d.threads v).2 = v + d.cellVolumes.sum := by
  rw [thread_loop_c_snd, Domain.cellVolumes, List.sum_flatten]
  simp [List.map_map, Function.comp_def]

/-- Final `vol_tot` of a run: the (uninitialized) start value plus the
sum of all volumes emitted during that run. -/
theorem on_demand_calc_total (w : World) (v0 : ℚ) :
    (on_demand_calc w v0).2.vol_tot = v0 + w.domain.cellVolumes.sum := by
  simp [on_demand_calc, thread_loop_c_total]

/- ## Example worlds used by the witnesses -/

/-- A world with two cell threads (volumes 3/2, 1/4 and 2), some prior
file content and console history, and a working output path. -/
def wEx : World :=
  { domain := { threads := [{ cells := [⟨3/2⟩, ⟨1/4⟩] }, { cells := [⟨2⟩] }] }
    file := ['x', '\n']
    console := ["host boot\n"]
    openFails := false }

/-- Like `wEx` but `fopen` on the output path fails. -/
def wExFail : World :=
  { domain := { threads := [{ cells := [⟨3/2⟩, ⟨1/4⟩] }, { cells := [⟨2⟩] }] }
    file := ['x', '\n']
    console := ["host boot\n"]
    openFails := true }

/-- A world whose domain has one cell thread with no cells. -/
def wExEmpty : World :=
  { domain := { threads := [{ cells := [] }] }
    file := ['x', '\n']
    console := []
    openFails := false }

/- ## Claim theorems -/

/-- C1: one invocation appends exactly `N = numCells` lines, one per
cell in traversal order, each the `%.20f` rendering of that cell's
volume — a line with exactly 20 digit characters after the single `'.'`
and a terminating `'\n'` — with nothing else appended: no header, no
footer, no total line, no delimiter between cell threads. -/
theorem C1_dump_format (w : World) (v0 : ℚ) (h : w.openFails = false) :
    (on_demand_calc w v0).1.file
        = w.file ++ (w.domain.cellVolumes.map fmt20).flatten
      ∧ (w.domain.cellVolumes.map fmt20).length = w.domain.numCells
      ∧ ∀ l ∈ w.domain.cellVolumes.map fmt20, lineFormatOk l := by
  refine ⟨?_, by simp [Domain.numCells], ?_⟩
  · simp [on_demand_calc, h, thread_loop_c_writes]
  · intro l hl
    rcases List.mem_map.mp hl with ⟨x, _, rfl⟩
    exact lineFormatOk_fmt20 x

theorem C1_dump_format_witness :
    (on_demand_calc wEx 5).1.file
        = wEx.file ++ (wEx.domain.cellVolumes.map fmt20).flatten
      ∧ (wEx.domain.cellVolumes.map fmt20).length = wEx.domain.numCells
      ∧ ∀ l ∈ wEx.domain.cellVolumes.map fmt20, lineFormatOk l :=
  C1_dump_format wEx 5 rfl

/-- C2 fails on the code: `vol_tot` is never initialized, so the final
total is the garbage start value plus the emitted sum.  With start value
1 and a single cell of volume 2 the routine ends with `vol_tot = 3`,
while the sum of the emitted volumes is 2. -/
theorem C2_total_uninitialized :
    (on_demand_calc { domain := { threads := [{ cells := [⟨2⟩] }] },
                      file := [], console := [], openFails := false } 1).2.vol_tot = 3
      ∧ ({ threads := [{ cells := [⟨2⟩] }] } : Domain).cellVolumes.sum = 2 := by
  constructor
  · rw [on_demand_calc_total]
    norm_num [Domain.cellVolumes]
  · norm_num [Domain.cellVolumes]

/-- C3: when `fopen` fails (NULL handle), the routine still performs,
with no check and no error report, one `fprintf` per cell and the final
`fclose`, all against the NULL handle, and its console output is the
same two fixed lines with no error text. -/
theorem C3_null_handle_writes (w : World) (v0 : ℚ) (h : w.openFails = true) :
    (on_demand_calc w v0).2.events
        = Event.fopenCall outPath "a" none ::
          Event.printf "File created\n" ::
          ((w.domain.cellVolumes.map fmt20).map (Event.fprintf none)
            ++ [Event.fclose none, Event.printf "File closed\n"])
      ∧ (on_demand_calc w v0).1.console
          = w.console ++ ["File created\n", "File closed\n"] := by
  constructor
  · simp [on_demand_calc, h, thread_loop_c_writes]
  · simp [on_demand_calc]

theorem C3_null_handle_writes_witness :
    (on_demand_calc wExFail 0).2.events
        = Event.fopenCall outPath "a" none ::
          Event.printf "File created\n" ::
          ((wExFail.domain.cellVolumes.map fmt20).map (Event.fprintf none)
            ++ [Event.fclose none, Event.printf "File closed\n"])
      ∧ (on_demand_calc wExFail 0).1.console
          = wExFail.console ++ ["File created\n", "File closed\n"] :=
  C3_null_handle_writes wExFail 0 rfl

/-- C4: invocations append: the prior file content is a prefix of the
file afterwards, and two invocations against the same domain append the
line list twice — exactly twice as many data lines as one invocation. -/
theorem C4_append_twice (w : World) (v0 v1 : ℚ) (h : w.openFails = false) :
    (∃ rest, (on_demand_calc w v0).1.file = w.file ++ rest)
      ∧ (on_demand_calc (on_demand_calc w v0).1 v1).1.file
          = w.file ++ (w.domain.cellVolumes.map fmt20
                        ++ w.domain.cellVolumes.map fmt20).flatten
      ∧ (w.domain.cellVolumes.map fmt20 ++ w.domain.cellVolumes.map fmt20).length
          = 2 * (w.domain.cellVolumes.map fmt20).length := by
  refine ⟨⟨(w.domain.cellVolumes.map fmt20).flatten,
           by simp [on_demand_calc, h, thread_loop_c_writes]⟩, ?_, ?_⟩
  · simp [on_demand_calc, h, thread_loop_c_writes, List.flatten_append, List.append_assoc]
  · simp only [List.length_append]
    omega

theorem C4_append_twice_witness :
    (∃ rest, (on_demand_calc wEx 5).1.file = wEx.file ++ rest)
      ∧ (on_demand_calc (on_demand_calc wEx 5).1 7).1.file
          = wEx.file ++ (wEx.domain.cellVolumes.map fmt20
                          ++ wEx.domain.cellVolumes.map fmt20).flatten
      ∧ (wEx.domain.cellVolumes.map fmt20 ++ wEx.domain.cellVolumes.map fmt20).length
          = 2 * (wEx.domain.cellVolumes.map fmt20).length :=
  C4_append_twice wEx 5 7 rfl

/-- C5: on a domain with zero cells, the run opens the output file,
performs no `fprintf`, closes it, and leaves the file content
unchanged. -/
theorem C5_empty_domain (w : World) (v0 : ℚ) (h : w.openFails = false)
    (hz : w.domain.numCells = 0) :
    (on_demand_calc w v0).1.file = w.file
      ∧ (on_demand_calc w v0).2.events
          = [Event.fopenCall outPath "a" (some ()), Event.printf "File created\n",
             Event.fclose (some ()), Event.printf "File closed\n"] := by
  rw [Domain.numCells] at hz
  have hnil : w.domain.cellVolumes = [] := List.length_eq_zero.mp hz
  constructor
  · simp [on_demand_calc, h, thread_loop_c_writes, hnil]
  · simp [on_demand_calc, h, thread_loop_c_writes, hnil]

theorem C5_empty_domain_witness :
    (on_demand_calc wExEmpty 5).1.file = wExEmpty.file
      ∧ (on_demand_calc wExEmpty 5).2.events
          = [Event.fopenCall outPath "a" (some ()), Event.printf "File created\n",
             Event.fclose (some ()), Event.printf "File closed\n"] :=
  C5_empty_domain wExEmpty 5 rfl rfl

/-- C6: the uninitialized start value of `vol_tot` is unobservable:
two runs on the same world that differ only in that value produce the
same file content, the same console and the same call trace. -/
theorem C6_voltot_unobservable (w : World) (v0 v0' : ℚ) :
    (on_demand_calc w v0).1.file = (on_demand_calc w v0').1.file
      ∧ (on_demand_calc w v0).1.console = (on_demand_calc w v0').1.console
      ∧ (on_demand_calc w v0).2.events = (on_demand_calc w v0').2.events := by
  refine ⟨?_, by simp [on_demand_calc], ?_⟩ <;>
    simp [on_demand_calc, thread_loop_c_writes]

/-- C7: every run prints exactly the two fixed lines on the console,
`"File created\n"` right after the open and `"File closed\n"` after the
close, bracketing the write pass — for every domain and every file-open
outcome. -/
theorem C7_console_fixed (w : World) (v0 : ℚ) :
    (on_demand_calc w v0).1.console
        = w.console ++ ["File created\n", "File closed\n"]
      ∧ ∃ (fp : Handle) (ws : List (List Char)), (on_demand_calc w v0).2.events
          = Event.fopenCall outPath "a" fp ::
            Event.printf "File created\n" ::
            (ws.map (Event.fprintf fp) ++ [Event.fclose fp, Event.printf "File closed\n"]) := by
  refine ⟨by simp [on_demand_calc],
          if w.openFails then none else some (),
          (thread_loop_c w.domain.threads v0).1, ?_⟩
  simp [on_demand_calc]

/-- C8: the routine terminates (it is a total function of the finite
domain) after visiting every cell thread and every cell exactly once:
the run performs exactly one `fprintf` per cell, the per-thread blocks
appearing once each in thread order. -/
theorem C8_visits_all_once (w : World) (v0 : ℚ) :
    writesOf (on_demand_calc w v0).2.events
        = (w.domain.threads.map (fun t => t.cells.map (fun c => fmt20 (C_VOLUME c t)))).flatten
      ∧ (writesOf (on_demand_calc w v0).2.events).length = w.domain.numCells := by
  have hw : writesOf (on_demand_calc w v0).2.events
      = (thread_loop_c w.domain.threads v0).1 := by
    simp [writesOf, on_demand_calc, List.filterMap_append, List.filterMap_map,
          Function.comp_def]
  constructor
  · rw [hw, thread_loop_c_fst]
    simp [C_VOLUME]
  · rw [hw, thread_loop_c_writes]
    simp [Domain.numCells]

/-- C9: the host domain is consumed strictly read-only: after a run the
domain (hence its threads, cells and volumes) and the open-failure
environment are unchanged; only the file and the console differ. -/
theorem C9_domain_readonly (w : World) (v0 : ℚ) :
    (on_demand_calc w v0).1.domain = w.domain
      ∧ (on_demand_calc w v0).1.domain.cellVolumes = w.domain.cellVolumes
      ∧ (on_demand_calc w v0).1.openFails = w.openFails :=
  ⟨rfl, rfl, rfl⟩

/-- C10: the appended bytes depend only on the flattened volume
sequence the traversal yields, not on the grouping into cell threads:
two domains with the same flattened sequence append identical bytes. -/
theorem C10_grouping_invariant (w1 w2 : World) (v1 v2 : ℚ)
    (h1 : w1.openFails = false) (h2 : w2.openFails = false)
    (hsame : w1.domain.cellVolumes = w2.domain.cellVolumes) :
    ∃ app, (on_demand_calc w1 v1).1.file = w1.file ++ app
      ∧ (on_demand_calc w2 v2).1.file = w2.file ++ app := by
  refine ⟨(w1.domain.cellVolumes.map fmt20).flatten, ?_, ?_⟩ <;>
    simp [on_demand_calc, h1, h2, thread_loop_c_writes, hsame]

/-- Regrouping of `wEx`'s volumes: same flattened sequence `[3/2, 1/4, 2]`,
different thread structure. -/
def wExRegrouped : World :=
  { domain := { threads := [{ cells := [⟨3/2⟩] }, { cells := [⟨1/4⟩, ⟨2⟩] }] }
    file := ['y']
    console := []
    openFails := false }

theorem C10_grouping_invariant_witness :
    ∃ app, (on_demand_calc wEx 5).1.file = wEx.file ++ app
      ∧ (on_demand_calc wExRegrouped 7).1.file = wExRegrouped.file ++ app :=
  C10_grouping_invariant wEx wExRegrouped 5 7 rfl rfl rfl
